import Mathlib

/-!
Shallow embedding of `src/clpyboard.py` (class `Main`), the clipboard-history
engine of Clpyboard.  The mutable engine state of a `Main` instance consists of

  * `self.old_data`     : the ordered list of captured clipboard texts,
  * `self.data_count`   : the slot counter,
  * `self.funcs`        : the dict mapping a slot id to the selection callback
                          generated by `on_select` (each callback captures the
                          value `dc = self.data_count` at creation time and, when
                          invoked, reads `self.old_data[dc]`, so we embed the
                          callback as the captured index `dc`),
  * `self.show_newlines`: the display preference toggled by the settings dialog.

GUI objects (the wx menu, tray icon, timer) carry no history state and are not
modelled.  Python strings are embedded as Lean `String` (both are sequences of
unicode code points; `len`, slicing and `'\n'`-replacement agree).  The pickle
file written by `save_data` is embedded as the `List String` it serialises;
an unparseable file is a `none`.
-/

namespace Clpyboard

/-- The engine state of a `Main` instance (fields set in `Main.__init__`,
lines 40-44 of `clpyboard.py`).  `funcs` is the slot dictionary: `funcs k =
some dc` means the dict has key `k` bound to a callback that captured index
`dc`; `none` means the key is absent. -/
structure MainState where
  old_data : List String
  data_count : Nat
  funcs : Nat → Option Nat
  show_newlines : Bool

/-- The state right after `Main.__init__` sets its fields (lines 40-44):
empty history, counter 0, empty dict, newlines hidden. -/
def initState : MainState :=
  { old_data := [], data_count := 0, funcs := fun _ => none, show_newlines := false }

/-- `label.replace('\n', ' ')` (line 85): every newline code point becomes a
single space.  Python `str.replace` with a one-character pattern is a
pointwise map over the code points. -/
def replaceNewlines (s : String) : String :=
  ⟨s.data.map (fun c => if c = '\n' then ' ' else c)⟩

/-- Python slicing `label[:17]` (line 88): the first `n` code points. -/
def strTake (s : String) (n : Nat) : String :=
  ⟨s.data.take n⟩

/-- The label computation in `Main.store` (lines 82-88): start from the raw
data; if `show_newlines` is false replace newlines by spaces; if the result
is longer than 20 characters keep the first 17 and append `"..."`. -/
def renderLabel (data : String) (show_newlines : Bool) : String :=
  let label := if show_newlines then data else replaceNewlines data
  if label.length > 20 then strTake label 17 ++ "..." else label

/-- `Main.store` (lines 79-95): append `data` to `old_data`, bind slot
`data_count` in `funcs` to a callback capturing `dc = data_count`
(`on_select`, lines 98-105, reads `dc` before the increment), insert a menu
item labelled `renderLabel data show_newlines`, and increment the counter.
`store` itself performs no duplicate check. -/
def store (st : MainState) (data : String) : MainState :=
  { st with
    old_data := st.old_data ++ [data]
    funcs := fun k => if k = st.data_count then some st.data_count else st.funcs k
    data_count := st.data_count + 1 }

/-- The dedup-checked insertion path of `Main.check_cb` (lines 76-77): if the
text is already in `old_data` nothing happens and no slot is produced;
otherwise `store` runs and the new entry's slot is the pre-increment
`data_count`.  This is the spec's `HistoryStore.offer`. -/
def offer (st : MainState) (data : String) : MainState × Option Nat :=
  if data ∈ st.old_data then (st, none) else (store st data, some st.data_count)

/-- A whole poll tick, `Main.check_cb` (lines 68-77).  `openOk` models
`wx.TheClipboard.Open()` succeeding and `readData` models the outcome of
`GetData`/`GetText` (`none` when `GetData` returns failure).  Only a
successful open followed by a successful read reaches the membership test
and possibly `store`. -/
def check_cb (st : MainState) (openOk : Bool) (readData : Option String) : MainState :=
  if openOk then
    match readData with
    | some data => if data ∈ st.old_data then st else store st data
    | none => st
  else st

/-- `Main.clear` (lines 119-125): delete the menu items, reset `funcs` to the
empty dict, `old_data` to the empty list and `data_count` to 0. -/
def clear (st : MainState) : MainState :=
  { st with old_data := [], data_count := 0, funcs := fun _ => none }

/-- Errors a slot resolution can hit: `notFound` embeds the `KeyError` of a
`self.funcs[...]` lookup on an absent slot id (the spec's `NotFound`), and
`indexOut` the `IndexError` of `self.old_data[dc]` (line 103) when the
captured index is out of range. -/
inductive SelectError where
  | notFound
  | indexOut
deriving DecidableEq

/-- Resolving a slot: invoking the menu callback bound in `Main.store`
(line 90) runs the closure from `on_select` (lines 98-105), which reads
`self.old_data[dc]` for the captured index `dc` and hands the text to
`to_cb`.  An unbound slot id fails like a missing dict key. -/
def get (st : MainState) (slot : Nat) : Except SelectError String :=
  match st.funcs slot with
  | none => .error .notFound
  | some dc =>
    match st.old_data[dc]? with
    | some t => .ok t
    | none => .error .indexOut

/-- `Main.save_data` (lines 134-136): pickle `self.old_data` into the save
file.  The file is embedded as the list it serialises. -/
def save_data (st : MainState) : List String :=
  st.old_data

/-- `Main.load_data` (lines 138-141): unpickle the list and call
`self.store(line)` on each element in order — directly, with no membership
test. -/
def load_data (file : List String) (st : MainState) : MainState :=
  file.foldl store st

/-- The one failure `load` can hit: `pickle.load` raising on an unparseable
file (the spec's `CorruptStore`). -/
inductive LoadError where
  | corruptStore
deriving DecidableEq

/-- `Main.load_data` on a raw file that may fail to unpickle: a `none` file
makes `pickle.load` raise, and `load_data` has no handler, so the error
propagates to the caller. -/
def load_dataE (file : Option (List String)) (st : MainState) :
    Except LoadError MainState :=
  match file with
  | some entries => .ok (load_data entries st)
  | none => .error .corruptStore

/-- The startup path of `Main.__init__` (lines 40-48): build the fresh state,
then `if isfile(self.save_file): self.load_data()`.  `diskFile` is `none`
when no save file exists, otherwise the raw file (itself `none` when
unparseable).  There is no `try`/`except` around `load_data`, so a raised
load error escapes `__init__`. -/
def mainInit (diskFile : Option (Option (List String))) :
    Except LoadError MainState :=
  match diskFile with
  | none => .ok initState
  | some raw => load_dataE raw initState

/-- Folding a sequence of offered clipboard texts through the dedup-checked
path, as consecutive poll ticks would. -/
def offerAll (st : MainState) (ts : List String) : MainState :=
  ts.foldl (fun s t => (offer s t).1) st

/-- Spec-side characterisation (section 8 of the spec): the sequence of
distinct texts in first-seen order. -/
def firstSeen (ts : List String) : List String :=
  ts.foldl (fun acc t => if t ∈ acc then acc else acc ++ [t]) []

/-- Spec-side rendering (section 4.2 of the spec), written independently of
`renderLabel`: replace every newline character of the entry by a single
space when `show_newlines` is false (recursion over the code points), then
truncate to the first 17 characters plus `"..."` exactly when the resulting
string exceeds 20 characters. -/
def subNewlines : List Char → List Char
  | [] => []
  | c :: cs => (if c = '\n' then ' ' else c) :: subNewlines cs

/-- Spec-side `render(entry, show_newlines)` from section 4.2. -/
def renderSpec (entry : String) (show_newlines : Bool) : String :=
  let s : String := if show_newlines then entry else ⟨subNewlines entry.data⟩
  if s.length > 20 then ⟨s.data.take 17⟩ ++ "..." else s

/-- The operations that mutate history state across a session (claim C10):
a `store` call, a `clear`, or a `load_data` replay of a file. -/
inductive Op where
  | store (data : String)
  | clear
  | load (file : List String)

/-- Apply one operation to the state. -/
def applyOp (st : MainState) : Op → MainState
  | .store d => store st d
  | .clear => clear st
  | .load f => load_data f st

/-- Run a sequence of operations from a starting state. -/
def run (ops : List Op) (st : MainState) : MainState :=
  ops.foldl applyOp st

/-! ### Helper lemmas -/

theorem store_old_data (st : MainState) (d : String) :
    (store st d).old_data = st.old_data ++ [d] := rfl

theorem offer_fst_old_data (st : MainState) (x : String) :
    ((offer st x).1).old_data =
      if x ∈ st.old_data then st.old_data else st.old_data ++ [x] := by
  by_cases h : x ∈ st.old_data <;> simp [offer, store, h]

theorem mem_offer_fst_old_data (st : MainState) (x : String) :
    x ∈ ((offer st x).1).old_data := by
  rw [offer_fst_old_data]
  by_cases h : x ∈ st.old_data <;> simp [h]

theorem offerAll_old_data (ts : List String) (st : MainState) :
    (offerAll st ts).old_data =
      ts.foldl (fun acc t => if t ∈ acc then acc else acc ++ [t]) st.old_data := by
  induction ts generalizing st with
  | nil => rfl
  | cons t ts ih =>
    simp only [offerAll, List.foldl_cons] at ih ⊢
    rw [ih ((offer st t).1), offer_fst_old_data]

theorem foldl_firstSeen_nodup (ts : List String) (acc : List String) (h : acc.Nodup) :
    (ts.foldl (fun acc t => if t ∈ acc then acc else acc ++ [t]) acc).Nodup := by
  induction ts generalizing acc with
  | nil => exact h
  | cons t ts ih =>
    simp only [List.foldl_cons]
    apply ih
    by_cases hm : t ∈ acc
    · simpa [hm]
    · simp [hm, List.nodup_append, h]

theorem foldl_firstSeen_mem (ts : List String) (acc : List String) (x : String) :
    x ∈ ts.foldl (fun acc t => if t ∈ acc then acc else acc ++ [t]) acc ↔
      x ∈ acc ∨ x ∈ ts := by
  induction ts generalizing acc with
  | nil => simp
  | cons t ts ih =>
    simp only [List.foldl_cons]
    rw [ih]
    by_cases hm : t ∈ acc
    · rw [if_pos hm]
      constructor
      · rintro (h | h)
        · exact Or.inl h
        · exact Or.inr (List.mem_cons_of_mem _ h)
      · rintro (h | h)
        · exact Or.inl h
        · rcases List.mem_cons.mp h with rfl | h
          · exact Or.inl hm
          · exact Or.inr h
    · rw [if_neg hm]
      simp only [List.mem_append, List.mem_singleton, List.mem_cons]
      tauto

theorem load_data_old_data (file : List String) (st : MainState) :
    (load_data file st).old_data = st.old_data ++ file := by
  induction file generalizing st with
  | nil => simp [load_data]
  | cons d fs ih =>
    simp only [load_data, List.foldl_cons] at ih ⊢
    rw [ih (store st d), store_old_data, List.append_assoc, List.singleton_append]

theorem subNewlines_eq_map (l : List Char) :
    subNewlines l = l.map (fun c => if c = '\n' then ' ' else c) := by
  induction l with
  | nil => rfl
  | cons c cs ih => simp [subNewlines, ih]

theorem replaceNewlines_length (t : String) :
    (replaceNewlines t).length = t.length := by
  show (t.data.map (fun c => if c = '\n' then ' ' else c)).length = t.data.length
  exact List.length_map _ _

/-- The slot bookkeeping invariant: the counter equals the number of stored
entries and the slot dict binds exactly the slots `0, …, data_count - 1`,
each to its own index. -/
def Inv (st : MainState) : Prop :=
  st.data_count = st.old_data.length ∧
  ∀ k, st.funcs k = if k < st.data_count then some k else none

theorem inv_initState : Inv initState := by
  constructor
  · rfl
  · intro k
    show (none : Option Nat) = if k < 0 then some k else none
    rw [if_neg (Nat.not_lt_zero k)]

theorem inv_store (st : MainState) (d : String) (h : Inv st) : Inv (store st d) := by
  obtain ⟨h1, h2⟩ := h
  constructor
  · simp [store, h1]
  · intro k
    show (if k = st.data_count then some st.data_count else st.funcs k) = _
    by_cases hk : k = st.data_count
    · subst hk
      simp [store]
    · rw [if_neg hk, h2 k]
      rcases Nat.lt_trichotomy k st.data_count with hlt | heq | hgt
      · rw [if_pos hlt, if_pos]
        show k < (store st d).data_count
        simp [store]
        omega
      · exact absurd heq hk
      · rw [if_neg (by omega), if_neg]
        show ¬ k < (store st d).data_count
        simp [store]
        omega

theorem inv_load_data (file : List String) (st : MainState) (h : Inv st) :
    Inv (load_data file st) := by
  induction file generalizing st with
  | nil => exact h
  | cons d fs ih =>
    simp only [load_data, List.foldl_cons] at ih ⊢
    exact ih (store st d) (inv_store st d h)

theorem inv_clear (st : MainState) : Inv (clear st) := by
  constructor
  · rfl
  · intro k
    show (none : Option Nat) = if k < 0 then some k else none
    rw [if_neg (Nat.not_lt_zero k)]

theorem inv_applyOp (st : MainState) (op : Op) (h : Inv st) : Inv (applyOp st op) := by
  cases op with
  | store d => exact inv_store st d h
  | clear => exact inv_clear st
  | load f => exact inv_load_data f st h

theorem inv_run (ops : List Op) (st : MainState) (h : Inv st) : Inv (run ops st) := by
  induction ops generalizing st with
  | nil => exact h
  | cons op ops ih =>
    simp only [run, List.foldl_cons] at ih ⊢
    exact ih (applyOp st op) (inv_applyOp st op h)

theorem get_of_inv (st : MainState) (h : Inv st) (k : Nat)
    (hk : k < st.old_data.length) :
    get st k = .ok (st.old_data.get ⟨k, hk⟩) := by
  obtain ⟨h1, h2⟩ := h
  unfold get
  rw [h2 k, if_pos (h1 ▸ hk)]
  show (match st.old_data[k]? with
        | some t => Except.ok t
        | none => Except.error SelectError.indexOut) =
      Except.ok (st.old_data.get ⟨k, hk⟩)
  rw [List.getElem?_eq_getElem hk]
  rfl

theorem get_notFound_of_inv (st : MainState) (h : Inv st) (k : Nat)
    (hk : st.data_count ≤ k) :
    get st k = Except.error SelectError.notFound := by
  obtain ⟨h1, h2⟩ := h
  unfold get
  rw [h2 k, if_neg (by omega)]

/-! ### Claim theorems -/

/-- C1: for every sequence of offered clipboard texts starting from the empty
store, the entries list afterwards is exactly the distinct texts in
first-seen order (`firstSeen`), contains no duplicate, and contains a text
iff it was offered. -/
theorem offer_sequence_dedup_first_seen (ts : List String) :
    (offerAll initState ts).old_data = firstSeen ts ∧
    (offerAll initState ts).old_data.Nodup ∧
    ∀ x, x ∈ (offerAll initState ts).old_data ↔ x ∈ ts := by
  have h := offerAll_old_data ts initState
  refine ⟨h, ?_, ?_⟩
  · rw [h]
    exact foldl_firstSeen_nodup ts [] List.nodup_nil
  · intro x
    rw [h, foldl_firstSeen_mem]
    simp [initState]

/-- C2 counterexample: replaying a saved file that contains the text `"a"`
twice leaves both copies in the store — `load_data` calls `store` directly,
so the dedup invariant does not hold after replay. -/
theorem load_replay_duplicates_cex :
    (load_data ["a", "a"] initState).old_data = ["a", "a"] ∧
    ¬ (load_data ["a", "a"] initState).old_data.Nodup := by
  constructor
  · rfl
  · decide

/-- C2 amended: startup replay passes each loaded text to `store` directly,
with no membership test, so loading a file into the empty store reproduces
the file verbatim — duplicates included. -/
theorem load_replay_appends_verbatim (file : List String) :
    (load_data file initState).old_data = file := by
  rw [load_data_old_data]
  rfl

/-- C3 counterexample: when the save file exists but cannot be unpickled,
startup does not produce a running state with an empty history — the load
error propagates out of `__init__` uncaught. -/
theorem corrupt_file_crashes_startup_cex :
    mainInit (some none) = Except.error LoadError.corruptStore := rfl

/-- C3 amended: an unparseable save file makes `load_data` fail with the
corrupt-store error, and since `__init__` wraps the call in no handler the
error propagates: startup fails instead of continuing with an empty
history. -/
theorem corrupt_file_error_propagates (st : MainState) :
    load_dataE none st = Except.error LoadError.corruptStore ∧
    mainInit (some none) = Except.error LoadError.corruptStore :=
  ⟨rfl, rfl⟩

/-- C4 counterexample: the entry `"a\nb"` has post-substitution length 3,
yet with `show_newlines = false` its label is `"a b"`, not the entry's text
verbatim. -/
theorem render_short_not_verbatim_cex :
    (replaceNewlines "a\nb").length ≤ 20 ∧
    renderLabel "a\nb" false ≠ "a\nb" := by
  constructor
  · decide
  · decide

/-- C4 amended: an entry whose post-newline-substitution length is at most
20 characters is never truncated: with `show_newlines = true` the label is
the entry's text verbatim, and with `show_newlines = false` it is the text
with each newline replaced by a space (verbatim only when the text has no
newline).  Substitution is length-preserving, so the length check agrees on
the pre- and post-substitution strings. -/
theorem render_short_no_truncation (t : String)
    (h : (replaceNewlines t).length ≤ 20) :
    renderLabel t false = replaceNewlines t ∧ renderLabel t true = t := by
  have hlen : (replaceNewlines t).length = t.length := replaceNewlines_length t
  constructor
  · show (if (replaceNewlines t).length > 20
        then strTake (replaceNewlines t) 17 ++ "..." else replaceNewlines t) =
        replaceNewlines t
    rw [if_neg (Nat.not_lt.mpr h)]
  · show (if t.length > 20 then strTake t 17 ++ "..." else t) = t
    rw [if_neg (Nat.not_lt.mpr (hlen ▸ h))]

/-- C4 witness: the amended theorem applied to `"line1\nline2"`. -/
theorem render_short_no_truncation_witness :
    (replaceNewlines "line1\nline2").length ≤ 20 ∧
    (renderLabel "line1\nline2" false = replaceNewlines "line1\nline2" ∧
      renderLabel "line1\nline2" true = "line1\nline2") :=
  ⟨by decide, render_short_no_truncation "line1\nline2" (by decide)⟩

/-- C5: the label computation of `Main.store` coincides with the spec's
`render`: collapse newlines to spaces when `show_newlines` is false, then
truncate to 17 characters plus `"..."` exactly when the result exceeds 20
characters; and rendering `"line1\nline2"` with `show_newlines = false`
yields `"line1 line2"`. -/
theorem render_matches_spec :
    (∀ t b, renderLabel t b = renderSpec t b) ∧
    renderLabel "line1\nline2" false = "line1 line2" := by
  constructor
  · intro t b
    cases b
    · simp [renderLabel, renderSpec, replaceNewlines, strTake, subNewlines_eq_map]
    · rfl
  · decide

/-- C6 counterexample: slot 0 is assigned for `"a"`, a `clear` intervenes,
and a later `store` of `"b"` reuses slot 0 — resolving slot 0 then succeeds
with the new entry instead of failing with `NotFound`. -/
theorem slot_reused_after_clear_cex :
    get (store (clear (store initState "a")) "b") 0 = Except.ok "b" ∧
    get (store (clear (store initState "a")) "b") 0 ≠
      Except.error SelectError.notFound := by
  constructor
  · rfl
  · intro h
    exact Except.noConfusion h

/-- C6 amended: immediately after a `clear` every slot fails with
`NotFound`, and in every store reachable by `store`/`clear`/`load_data`
operations a slot that was never assigned — one at or beyond the current
counter — fails with `NotFound`; but slot numbers restart from 0 after a
clear, so once new entries are stored the old slot numbers resolve to the
new entries rather than failing. -/
theorem get_notfound_unassigned_or_cleared (st : MainState) (k : Nat) :
    get (clear st) k = Except.error SelectError.notFound ∧
    ∀ ops : List Op, (run ops initState).data_count ≤ k →
      get (run ops initState) k = Except.error SelectError.notFound := by
  constructor
  · rfl
  · intro ops hk
    exact get_notFound_of_inv (run ops initState) (inv_run ops initState inv_initState) k hk

/-- C6 amended witness: slot 1 after a `clear`, and slot 1 in a store
holding the single entry `"a"`, both fail with `NotFound`. -/
theorem get_notfound_unassigned_or_cleared_witness :
    get (clear initState) 1 = Except.error SelectError.notFound ∧
    get (store initState "a") 1 = Except.error SelectError.notFound := by
  have h := get_notfound_unassigned_or_cleared initState 1
  exact ⟨h.1, h.2 [Op.store "a"] (by decide)⟩

/-- C7: saving any store's entries and loading the resulting file back into
a fresh store reproduces the same ordered sequence of texts — for every
entry list, including empty, multi-line and unicode strings. -/
theorem save_load_round_trip (st : MainState) :
    (load_data (save_data st) initState).old_data = st.old_data := by
  rw [load_data_old_data]
  rfl

/-- C8: offering a text twice in a row is idempotent — after the first
`offer` the text is present, so the second returns no slot and leaves the
whole state (entries, counter, slot dict) unchanged. -/
theorem offer_duplicate_idempotent (st : MainState) (x : String) :
    offer ((offer st x).1) x = ((offer st x).1, none) := by
  have hmem := mem_offer_fst_old_data st x
  generalize hs : (offer st x).1 = s1 at hmem ⊢
  unfold offer
  rw [if_pos hmem]

/-- C9: a poll tick whose clipboard read fails — the clipboard cannot be
opened, or no text data is available — leaves the state (entries, counter,
slot dict, preference) entirely unchanged; `check_cb` is total, so no error
escapes the poll loop. -/
theorem failed_tick_no_op (st : MainState) (openOk : Bool)
    (readData : Option String) (h : openOk = false ∨ readData = none) :
    check_cb st openOk readData = st := by
  rcases h with h | h
  · subst h
    rfl
  · subst h
    cases openOk <;> rfl

/-- C9 witness: the theorem applied to a failed clipboard open on the fresh
state. -/
theorem failed_tick_no_op_witness :
    check_cb initState false none = initState :=
  failed_tick_no_op initState false none (Or.inl rfl)

/-- C10: after any sequence of `store`, `clear` and `load_data` operations
from the fresh state, the slot counter equals the number of stored entries,
the slot dict binds exactly the slots `0, …, data_count - 1` (each to its
own index), and resolving any in-range slot `k` yields the text at index
`k` of the entries list. -/
theorem run_slot_index_invariant (ops : List Op) :
    (run ops initState).data_count = (run ops initState).old_data.length ∧
    (∀ k, (run ops initState).funcs k =
      if k < (run ops initState).data_count then some k else none) ∧
    ∀ k, ∀ hk : k < (run ops initState).old_data.length,
      get (run ops initState) k =
        Except.ok ((run ops initState).old_data.get ⟨k, hk⟩) := by
  have h := inv_run ops initState inv_initState
  exact ⟨h.1, h.2, fun k hk => get_of_inv (run ops initState) h k hk⟩

/-- C10 witness: the invariant applied to the sequence
`store "a"; clear; store "b"`, resolving slot 0. -/
theorem run_slot_index_invariant_witness :
    get (run [Op.store "a", Op.clear, Op.store "b"] initState) 0 =
      Except.ok "b" := by
  have h := run_slot_index_invariant [Op.store "a", Op.clear, Op.store "b"]
  exact (h.2.2 0 (by decide)).trans rfl

end Clpyboard
